import Mathlib

/-!
Verification of the binary-buffer serialization engine (src/types.ts,
src/buffers.ts, src/util.ts) against its natural-language specification.

Buffers (JS ArrayBuffer contents) are modeled as lists of bytes
(`List Nat`, each element `< 256` where the DataView writers guarantee it).
JS strings are modeled by their UTF-8 byte sequences, so TextEncoder and
TextDecoder become the identity on the byte list; the off-by-one slicing in
the string codec is visible at the byte level regardless.  IEEE-754 floats
are modeled by their 32/64-bit patterns, which is exact for bit-level
equality: DataView stores the pattern big-endian.
-/

namespace BinaryBuffer

/-- Contents of a JS ArrayBuffer: a list of bytes. -/
abbrev Bytes := List Nat

/-! DataView accessors (big-endian, the DataView default).  The setters
coerce the stored value exactly as the JS ToUint8/ToUint16/ToUint32
conversions do (reduction mod 2^width); the getters read bytes with
`List.getD`, which never fails where DataView would (the codecs only read
inside buffers their own serializers produced, or inside the preallocated
builder buffer). -/

def setUint8 (v : Nat) : Bytes := [v % 256]

def setUint16 (v : Nat) : Bytes := [v % 65536 / 256, v % 256]

def setUint32 (v : Nat) : Bytes :=
  [v % 4294967296 / 16777216, v % 16777216 / 65536, v % 65536 / 256, v % 256]

def getUint8 (b : Bytes) : Nat := b.getD 0 0

def getUint16 (b : Bytes) : Nat := 256 * b.getD 0 0 + b.getD 1 0

def getUint32 (b : Bytes) : Nat :=
  16777216 * b.getD 0 0 + 65536 * b.getD 1 0 + 256 * b.getD 2 0 + b.getD 3 0

/-- DataView setInt8: the stored byte is the value mod 256 in
twos-complement form; `Int.emod` is nonnegative for a positive modulus. -/
def setInt8 (v : Int) : Bytes := [(v % 256).toNat]

def setInt16 (v : Int) : Bytes := setUint16 (v % 65536).toNat

def setInt32 (v : Int) : Bytes := setUint32 (v % 4294967296).toNat

def getInt8 (b : Bytes) : Int :=
  let x := getUint8 b
  if x < 128 then (x : Int) else (x : Int) - 256

def getInt16 (b : Bytes) : Int :=
  let x := getUint16 b
  if x < 32768 then (x : Int) else (x : Int) - 65536

def getInt32 (b : Bytes) : Int :=
  let x := getUint32 b
  if x < 2147483648 then (x : Int) else (x : Int) - 4294967296

/-- Typed-array store on a buffer, the effect of
`new Uint8Array(buf, offset, len).set(new Uint8Array(bytes))`: copy the
bytes element by element starting at `offset`.  (`List.set` past the end is
a no-op where the typed-array constructor would throw a RangeError; no
claim exercises that overflow path.) -/
def writeAt (buf : Bytes) (offset : Nat) : Bytes → Bytes
  | [] => buf
  | v :: vs => writeAt (buf.set offset v) (offset + 1) vs

/-- TypeDefinition from src/buffers.ts: a named codec with a nominal byte
length and a serialize/deserialize pair. -/
structure TypeDefinition (α : Type) where
  name : String
  byteLength : Nat
  serialize : α → Bytes
  deserialize : Bytes → α

/-! The built-in codec library, src/types.ts, one definition per exported
codec, each a direct transcription of its serialize/deserialize body. -/

def uint8 : TypeDefinition Nat :=
  { name := "uint8", byteLength := 1
    serialize := fun v => setUint8 v
    deserialize := fun b => getUint8 b }

def uint16 : TypeDefinition Nat :=
  { name := "uint16", byteLength := 2
    serialize := fun v => setUint16 v
    deserialize := fun b => getUint16 b }

def uint32 : TypeDefinition Nat :=
  { name := "uint32", byteLength := 4
    serialize := fun v => setUint32 v
    deserialize := fun b => getUint32 b }

def int8 : TypeDefinition Int :=
  { name := "int8", byteLength := 1
    serialize := fun v => setInt8 v
    deserialize := fun b => getInt8 b }

def int16 : TypeDefinition Int :=
  { name := "int16", byteLength := 2
    serialize := fun v => setInt16 v
    deserialize := fun b => getInt16 b }

def int32 : TypeDefinition Int :=
  { name := "int32", byteLength := 4
    serialize := fun v => setInt32 v
    deserialize := fun b => getInt32 b }

/-- float32 models IEEE-754 single values by their 32-bit patterns:
setFloat32 stores the pattern big-endian, getFloat32 reads it back, and
bit-level equality is equality of patterns. -/
def float32 : TypeDefinition Nat :=
  { name := "float32", byteLength := 4
    serialize := fun v => setUint32 v
    deserialize := fun b => getUint32 b }

/-- float64 models IEEE-754 double values by their 64-bit patterns, stored
big-endian as two 32-bit halves. -/
def float64 : TypeDefinition Nat :=
  { name := "float64", byteLength := 8
    serialize := fun v => setUint32 (v / 4294967296) ++ setUint32 (v % 4294967296)
    deserialize := fun b => 4294967296 * getUint32 b + getUint32 (b.drop 4) }

def boolean : TypeDefinition Bool :=
  { name := "boolean", byteLength := 1
    serialize := fun v => setUint8 (if v then 1 else 0)
    deserialize := fun b => getUint8 b == 1 }

/-- string codec, src/types.ts lines 290-306.  A JS string is modeled by
its UTF-8 byte sequence, making TextEncoder/TextDecoder the identity on
the list.  serialize emits a 2-byte length followed by the encoded bytes;
deserialize reads the 2-byte length at offset 0 and then returns
`buffer.slice(1, length + 1)` — exactly as the source does, starting at
offset 1, not 2. -/
def string : TypeDefinition Bytes :=
  { name := "string", byteLength := 2
    serialize := fun v => setUint16 v.length ++ v
    deserialize := fun b => (b.drop 1).take (getUint16 b) }

/-- Element loop of the array codec deserializer: `length` iterations, each
decoding from `buffer.slice(offset)` and then advancing `offset` by the
inner codec nominal `byteLength` (src/types.ts line 343). -/
def arrayDeserializeAux (t : TypeDefinition α) (b : Bytes) : Nat → Nat → List α
  | 0, _ => []
  | n + 1, offset =>
      t.deserialize (b.drop offset) :: arrayDeserializeAux t b n (offset + t.byteLength)

/-- array codec combinator, src/types.ts lines 325-348. -/
def array (t : TypeDefinition α) : TypeDefinition (List α) :=
  { name := t.name ++ "[]", byteLength := 4
    serialize := fun l => setUint32 l.length ++ (l.map t.serialize).flatten
    deserialize := fun b => arrayDeserializeAux t b (getUint32 b) 4 }

/-! Registry and builder model, src/buffers.ts.  The registry
`this.types` is a string-keyed JS object iterated in insertion order, so it
is modeled as an insertion-ordered list of codecs.  Since the registry
holds codecs of heterogeneous value types (TypeDefinition of any), the
registered codecs operate on a dynamic `Value`. -/

inductive Value where
  | num : Int → Value
  | str : Bytes → Value
  | bool : Bool → Value
  deriving DecidableEq, Repr

/-- Dynamic form of the int8 codec, as stored in the registry.  The
serialize side matches the source only on numeric values; on any other
Value the JS DataView would first coerce with ToNumber, a path no claim
exercises, modeled as the empty buffer. -/
def int8Dyn : TypeDefinition Value :=
  { name := "int8", byteLength := 1
    serialize := fun v => match v with
      | .num n => int8.serialize n
      | _ => []
    deserialize := fun b => .num (int8.deserialize b) }

/-- Dynamic form of the uint8 codec (same conventions as `int8Dyn`). -/
def uint8Dyn : TypeDefinition Value :=
  { name := "uint8", byteLength := 1
    serialize := fun v => match v with
      | .num n => if 0 ≤ n then uint8.serialize n.toNat else []
      | _ => []
    deserialize := fun b => .num (uint8.deserialize b) }

/-- Dynamic form of the boolean codec (same conventions as `int8Dyn`). -/
def booleanDyn : TypeDefinition Value :=
  { name := "boolean", byteLength := 1
    serialize := fun v => match v with
      | .bool x => boolean.serialize x
      | _ => []
    deserialize := fun b => .bool (boolean.deserialize b) }

/-- Dynamic form of the float64 codec, values as 64-bit patterns (same
conventions as `int8Dyn`). -/
def float64Dyn : TypeDefinition Value :=
  { name := "float64", byteLength := 8
    serialize := fun v => match v with
      | .num n => if 0 ≤ n then float64.serialize n.toNat else []
      | _ => []
    deserialize := fun b => .num (float64.deserialize b) }

/-- Dynamic form of the string codec (same conventions as `int8Dyn`). -/
def stringDyn : TypeDefinition Value :=
  { name := "string", byteLength := 2
    serialize := fun v => match v with
      | .str s => string.serialize s
      | _ => []
    deserialize := fun b => .str (string.deserialize b) }

/-- Error kinds of the engine (ss 7 of the spec).  The source throws
`Error` objects whose messages name the offending type or type ID; the
constructors carry the same data. -/
inductive BBError where
  | unknownType (name : String)
  | unknownTypeId (id : Int)
  deriving DecidableEq, Repr

/-- BufferBuilder state: the preallocated backing buffer `this.buffer`,
the shared cursor `this.offset`, and the insertion-ordered registry
`this.types`. -/
structure Builder where
  buffer : Bytes
  offset : Nat
  types : List (TypeDefinition Value)

/-- registerType: `this.types[typeDef.name] = typeDef`.  JS object
assignment keeps the position of an existing string key and appends a new
key at the end of the iteration order. -/
def registerType (types : List (TypeDefinition Value)) (t : TypeDefinition Value) :
    List (TypeDefinition Value) :=
  if types.any (fun u => u.name = t.name) then
    types.map (fun u => if u.name = t.name then t else u)
  else
    types ++ [t]

/-- Type-ID resolution in createBuffer (src/buffers.ts lines 108-115):
map each descriptor field to `Object.keys(this.types).indexOf(typeName)`,
throwing on the first name with index -1.  `List.mapM` over `Except` is
fail-fast left to right, like `Array.prototype.map` with a throwing
callback. -/
def resolveField (types : List (TypeDefinition Value)) (fld : String × String) :
    Except BBError Nat :=
  match types.findIdx? (fun t => t.name = fld.2) with
  | some i => .ok i
  | none => .error (.unknownType fld.2)

def typeIdsOf (types : List (TypeDefinition Value)) (descr : List (String × String)) :
    Except BBError (List Nat) :=
  descr.mapM (resolveField types)

/-- Little-endian 4-byte layout of one element of an `Int32Array`, the
header encoding used by createBuffer (typed arrays use platform
endianness, little-endian on the supported platforms). -/
def int32LE (v : Nat) : Bytes :=
  [v % 256, v / 256 % 256, v / 65536 % 256, v / 16777216 % 256]

/-- Result of createBuffer: the resolved header IDs, the concatenated
header-plus-data snapshot returned as `buffer`, and one (field name,
codec) pair per descriptor field, in descriptor order. -/
structure Created where
  headerIds : List Nat
  buffer : Bytes
  fields : List (String × TypeDefinition Value)

/-- createBuffer, src/buffers.ts lines 105-149: resolve every field type
name to a registry ID (fail-fast), lay the IDs out as an Int32Array
header, and concatenate the header with the current backing buffer into a
fresh snapshot.  The accessors close over the codecs resolved here; their
behavior is `builderSet` / `builderGet` below.  Nothing is written to the
backing buffer, and `this.offset` is untouched. -/
def createBuffer (b : Builder) (descr : List (String × String)) :
    Except BBError Created := do
  let ids ← typeIdsOf b.types descr
  let fields := descr.filterMap (fun fld =>
    (b.types.find? (fun t => t.name = fld.2)).map (fun t => (fld.1, t)))
  .ok { headerIds := ids
        buffer := (ids.map int32LE).flatten ++ b.buffer
        fields := fields }

/-- Builder accessor `set` (src/buffers.ts lines 136-143): serialize the
value, write a 4-byte big-endian length via `this.view.setUint32` at the
shared cursor, copy the payload right after it into `this.buffer`, and
advance the cursor by `4 + payload length`. -/
def builderSet (b : Builder) (t : TypeDefinition Value) (v : Value) : Builder :=
  let bytes := t.serialize v
  { b with
    buffer := writeAt (writeAt b.buffer b.offset (setUint32 bytes.length)) (b.offset + 4) bytes
    offset := b.offset + 4 + bytes.length }

/-- Builder accessor `get` (src/buffers.ts line 135): deserialize
`concatenatedBuffer.slice(this.offset)` — the snapshot taken at creation
time, sliced at the current value of the shared cursor. -/
def builderGet (b : Builder) (snapshot : Bytes) (t : TypeDefinition Value) : Value :=
  t.deserialize (snapshot.drop b.offset)

/-! Wrapper model, createWrapper (src/buffers.ts lines 184-219). -/

/-- Little-endian read of one `Int32Array` element at byte `offset`. -/
def readInt32LE (b : Bytes) (offset : Nat) : Int :=
  let x := b.getD offset 0 + 256 * b.getD (offset + 1) 0 +
    65536 * b.getD (offset + 2) 0 + 16777216 * b.getD (offset + 3) 0
  if x < 2147483648 then (x : Int) else (x : Int) - 4294967296

/-- Header decoding and accessor construction in `wrap`: read one 32-bit
ID per descriptor field, resolve each through
`Object.keys(this.types)[typeId]` (failing on an unresolvable ID), then
iterate `Object.entries(types)` — `types` is a JS **array**, so the
entry keys are the stringified indices "0", "1", ..., and those are the
keys under which the accessors are stored. -/
def wrapOps (types : List (TypeDefinition Value)) (descr : List (String × String))
    (input : Bytes) : Except BBError (List (String × TypeDefinition Value)) := do
  let ids := (List.range descr.length).map (fun i => readInt32LE input (4 * i))
  let resolved ← ids.mapM (fun id =>
    if h : 0 ≤ id ∧ id.toNat < types.length then
      Except.ok (types.get ⟨id.toNat, h.2⟩)
    else
      Except.error (BBError.unknownTypeId id))
  .ok (resolved.enum.map (fun p => (toString p.1, p.2)))

/-- Wrapper accessor `set` (src/buffers.ts lines 208-213): serialize the
value, copy the payload bytes at the current cursor through
`new Uint8Array(input, offset, length).set(...)`, and advance the cursor
by the payload length.  Returns the updated buffer and cursor. -/
def wrapperSet (buf : Bytes) (offset : Nat) (t : TypeDefinition Value) (v : Value) :
    Bytes × Nat :=
  let bytes := t.serialize v
  (writeAt buf offset bytes, offset + bytes.length)

/-- Write behavior of a builder accessor from createBuffer, expressed over
a bare buffer and cursor for comparison with `wrapperSet`: 4-byte
big-endian length at the cursor, payload right after, cursor advanced by
`4 + payload length`. -/
def builderAccessorSet (buf : Bytes) (offset : Nat) (t : TypeDefinition Value) (v : Value) :
    Bytes × Nat :=
  let bytes := t.serialize v
  (writeAt (writeAt buf offset (setUint32 bytes.length)) (offset + 4) bytes,
    offset + 4 + bytes.length)

/-! Heap model for aliasing claims.  ArrayBuffer identity matters for the
copy-isolation and snapshot-immutability claims, so buffers live in a
store mapping allocation IDs to byte lists; `alloc` returns a fresh ID. -/

structure Store where
  bufs : Nat → Bytes
  next : Nat

/-- Allocation of a fresh ArrayBuffer holding `content`. -/
def Store.alloc (s : Store) (content : Bytes) : Store × Nat :=
  ({ bufs := fun j => if j = s.next then content else s.bufs j
     next := s.next + 1 }, s.next)

/-- copy from src/util.ts lines 25-31, invoked: allocate a fresh buffer of
the same length and copy the bytes of `input` as they are at invocation
time. -/
def copyFn (s : Store) (inputId : Nat) : Store × Nat :=
  s.alloc (s.bufs inputId)

/-- Byte-range store into the buffer with ID `id`, the building block of
every mutation the library performs. -/
def writeBytesStore (s : Store) (id : Nat) (offset : Nat) (bytes : Bytes) : Store :=
  { s with bufs := fun j => if j = id then writeAt (s.bufs id) offset bytes else s.bufs j }

/-- Sequence of byte-range stores into one buffer. -/
def applyWrites (s : Store) (id : Nat) : List (Nat × Bytes) → Store
  | [] => s
  | w :: ws => applyWrites (writeBytesStore s id w.1 w.2) id ws

/-- Heap-level view of the buffer construction in createBuffer:
`concatenateArrayBuffers(headerArrayBuffer, this.buffer)` allocates a
fresh Uint8Array and copies both parts into it (src/util.ts lines 6-18),
so the returned buffer is a fresh allocation holding header bytes followed
by the current backing-buffer bytes. -/
def createBufferAlloc (s : Store) (builderId : Nat) (headerBytes : Bytes) : Store × Nat :=
  s.alloc (headerBytes ++ s.bufs builderId)

/-- Heap-level view of one builder-accessor `set`: both stores (the 4-byte
length and the payload) land in the backing buffer `builderId`; the cursor
advances by `4 + payload length`. -/
def builderSetStore (s : Store) (builderId : Nat) (offset : Nat) (payload : Bytes) :
    Store × Nat :=
  (writeBytesStore (writeBytesStore s builderId offset (setUint32 payload.length))
      builderId (offset + 4) payload,
    offset + 4 + payload.length)

/-- Sequence of builder-accessor `set` calls with the given payloads,
threading the shared cursor. -/
def applySets (s : Store) (builderId : Nat) (offset : Nat) : List Bytes → Store × Nat
  | [] => (s, offset)
  | p :: ps =>
      let r := builderSetStore s builderId offset p
      applySets r.1 builderId r.2 ps

/-! Concrete scenario from the spec (ss 8) and src/example.ts: register
int8 and string, descriptor with fields age and name, set age to 25 and
name to "John Doe" (UTF-8 bytes 74 111 104 110 32 68 111 101), then read
both fields back. -/

def scenarioBuilder : Builder :=
  { buffer := List.replicate 1024 0, offset := 0, types := [int8Dyn, stringDyn] }

def scenarioDescr : List (String × String) := [("age", "int8"), ("name", "string")]

def johnDoe : Bytes := [74, 111, 104, 110, 32, 68, 111, 101]

/-- Builder state after `ops.age.set(25)` and `ops.name.set("John Doe")`. -/
def scenarioAfterSets : Builder :=
  builderSet (builderSet scenarioBuilder int8Dyn (.num 25)) stringDyn (.str johnDoe)

/-! Round-trip lemmas for the fixed-width built-in codecs.  These nine
codecs do invert their serializers on their declared domains; the string
codec below is the one that does not. -/

theorem uint8_roundtrip (v : Nat) (h : v < 256) :
    uint8.deserialize (uint8.serialize v) = v := by
  simp only [uint8, setUint8, getUint8, List.getD_cons_zero]
  omega

theorem uint16_roundtrip (v : Nat) (h : v < 65536) :
    uint16.deserialize (uint16.serialize v) = v := by
  simp only [uint16, setUint16, getUint16, List.getD_cons_zero, List.getD_cons_succ]
  omega

theorem uint32_roundtrip (v : Nat) (h : v < 4294967296) :
    uint32.deserialize (uint32.serialize v) = v := by
  simp only [uint32, setUint32, getUint32, List.getD_cons_zero, List.getD_cons_succ]
  omega

theorem int8_roundtrip (v : Int) (h1 : -128 ≤ v) (h2 : v ≤ 127) :
    int8.deserialize (int8.serialize v) = v := by
  simp only [int8, setInt8, getInt8, getUint8, List.getD_cons_zero]
  omega

theorem int16_roundtrip (v : Int) (h1 : -32768 ≤ v) (h2 : v ≤ 32767) :
    int16.deserialize (int16.serialize v) = v := by
  simp only [int16, setInt16, setUint16, getInt16, getUint16,
    List.getD_cons_zero, List.getD_cons_succ]
  omega

theorem int32_roundtrip (v : Int) (h1 : -2147483648 ≤ v) (h2 : v ≤ 2147483647) :
    int32.deserialize (int32.serialize v) = v := by
  simp only [int32, setInt32, setUint32, getInt32, getUint32,
    List.getD_cons_zero, List.getD_cons_succ]
  omega

theorem float32_roundtrip (v : Nat) (h : v < 4294967296) :
    float32.deserialize (float32.serialize v) = v := by
  simp only [float32, setUint32, getUint32, List.getD_cons_zero, List.getD_cons_succ]
  omega

theorem float64_roundtrip (v : Nat) (h : v < 18446744073709551616) :
    float64.deserialize (float64.serialize v) = v := by
  simp only [float64, setUint32, getUint32, List.cons_append, List.nil_append,
    List.getD_cons_zero, List.getD_cons_succ, List.drop_succ_cons, List.drop_zero]
  omega

theorem boolean_roundtrip (v : Bool) :
    boolean.deserialize (boolean.serialize v) = v := by
  cases v <;> rfl

/-- C1.  The claim quantifies over all ten built-in codecs; it fails on
the string codec.  serialize("a") produces the three bytes
[0, 1, 97] (2-byte length 1, then the byte of "a"), but deserialize
slices bytes [1, length+1) instead of [2, length+2), returning the single
byte 1 — the low length byte — instead of byte 97.  At the byte level,
deserialize(serialize("a")) is the 1-byte string 0x01, not "a". -/
theorem string_roundtrip_fails :
    string.deserialize (string.serialize [97]) = [1] ∧
    string.deserialize (string.serialize [97]) ≠ [97] := by
  decide

/-- C2.  In the spec scenario (register int8 and string, descriptor with
age and name, set age to 25 and name to "John Doe"), the accessors do not
read back the stored values: get deserializes the snapshot taken at
creation time (which never receives the writes, since set writes into the
private builder buffer) at the shared cursor, which both sets have already
advanced to 19.  age.get() returns 0 and name.get() returns the empty
string, not 25 and "John Doe". -/
theorem scenario_gets_return_stale :
    (createBuffer scenarioBuilder scenarioDescr).map (fun c =>
        (builderGet scenarioAfterSets c.buffer int8Dyn,
         builderGet scenarioAfterSets c.buffer stringDyn))
      = .ok (.num 0, .str []) := by
  rfl

/-- C4.  The array codec deserializer advances past each element by the
inner codec nominal byteLength (2 for string), not by the element actual
emitted length (4 for a 2-byte string payload), so array(string) does not
round-trip: serializing the list ["ab", "cd"] (UTF-8 [97,98] and [99,100])
and deserializing yields garbage, not the original list. -/
theorem array_string_roundtrip_fails :
    (array string).deserialize ((array string).serialize [[97, 98], [99, 100]])
        = [[2, 97], [98, 0, 2, 99, 100]] ∧
    (array string).deserialize ((array string).serialize [[97, 98], [99, 100]])
        ≠ [[97, 98], [99, 100]] := by
  decide

/-- C8.  array(uint8) round-trips both [1,2,3] and the empty list: the
inner codec is fixed-width with actual emitted length equal to its nominal
byteLength of 1, so the decode offsets are correct. -/
theorem array_uint8_roundtrip :
    (array uint8).deserialize ((array uint8).serialize [1, 2, 3]) = [1, 2, 3] ∧
    (array uint8).deserialize ((array uint8).serialize []) = ([] : List Nat) := by
  decide

/-- C7.  wrap iterates `Object.entries` over the resolved codec **array**,
so accessors are keyed by the stringified indices "0", "1", ..., not by
the descriptor field names: for the descriptor with single field "age" of
type float64 and a buffer whose header holds ID 0, the produced accessor
map has key "0", not "age". -/
theorem wrap_ops_keyed_by_indices :
    (wrapOps [float64Dyn] [("age", "float64")] (int32LE 0 ++ List.replicate 12 0)).map
        (fun l => l.map Prod.fst)
      = .ok ["0"] := by
  rfl

/-- C3 counterexample.  At a concrete input (16-byte zero buffer, cursor
4, int8 value 25), the wrapper accessor set and the builder accessor set
produce different buffers and different cursors: the wrapper writes the
single payload byte at offset 4 and moves the cursor to 5, while a builder
accessor writes the 4-byte length 1 at offset 4, the payload at offset 8,
and moves the cursor to 9. -/
theorem wrapperSet_differs_from_builderSet :
    wrapperSet (List.replicate 16 0) 4 int8Dyn (.num 25)
      ≠ builderAccessorSet (List.replicate 16 0) 4 int8Dyn (.num 25) := by
  decide

/-- Splice characterization of the typed-array store: when the write fits
inside the buffer, copying `bytes` at `offset` leaves the bytes before
`offset` and the ones from `offset + bytes.length` on unchanged and puts
`bytes` in between. -/
theorem writeAt_eq_of_le : ∀ (bytes buf : Bytes) (offset : Nat),
    offset + bytes.length ≤ buf.length →
    writeAt buf offset bytes = buf.take offset ++ bytes ++ buf.drop (offset + bytes.length)
  | [], buf, offset, h => by
      simp [writeAt]
  | v :: vs, buf, offset, h => by
      have hlt : offset < buf.length := by
        simp only [List.length_cons] at h; omega
      have hlen : (offset + 1) + vs.length ≤ (buf.set offset v).length := by
        rw [List.length_set]; simp only [List.length_cons] at h; omega
      have hset : buf.set offset v = buf.take offset ++ v :: buf.drop (offset + 1) := by
        rw [List.set_eq_take_append_cons_drop, if_pos hlt]
      have htk : (buf.take offset).length = offset := by
        rw [List.length_take]; omega
      rw [writeAt, writeAt_eq_of_le vs _ _ hlen, hset,
        List.take_append_eq_append_take, List.drop_append_eq_append_drop,
        List.take_of_length_le (by omega : (buf.take offset).length ≤ offset + 1),
        List.drop_of_length_le (by omega : (buf.take offset).length ≤ offset + 1 + vs.length),
        htk]
      have h1 : offset + 1 - offset = 1 := by omega
      have h2 : offset + 1 + vs.length - offset = vs.length + 1 := by omega
      rw [h1, h2]
      have h3 : List.take 1 (v :: buf.drop (offset + 1)) = [v] := rfl
      have h4 : List.drop (vs.length + 1) (v :: buf.drop (offset + 1))
          = buf.drop (offset + (vs.length + 1)) := by
        rw [List.drop_succ_cons, List.drop_drop]
        congr 1
        omega
      rw [h3, h4]
      simp [List.append_assoc]

/-- C3 amended.  A wrapper accessor set writes only the serialized payload
bytes at the current cursor — no 4-byte length in front — and advances the
cursor by the payload length alone. -/
theorem wrapperSet_writes_payload_only (buf : Bytes) (offset : Nat)
    (t : TypeDefinition Value) (v : Value)
    (h : offset + (t.serialize v).length ≤ buf.length) :
    wrapperSet buf offset t v
      = (buf.take offset ++ t.serialize v ++ buf.drop (offset + (t.serialize v).length),
         offset + (t.serialize v).length) := by
  simp [wrapperSet, writeAt_eq_of_le _ _ _ h]

theorem wrapperSet_writes_payload_only_witness :
    4 + (int8Dyn.serialize (.num 25)).length ≤ (List.replicate 16 (0 : Nat)).length ∧
    wrapperSet (List.replicate 16 0) 4 int8Dyn (.num 25)
      = ((List.replicate 16 0).take 4 ++ int8Dyn.serialize (.num 25)
          ++ (List.replicate 16 0).drop (4 + (int8Dyn.serialize (.num 25)).length),
         4 + (int8Dyn.serialize (.num 25)).length) :=
  ⟨by decide, wrapperSet_writes_payload_only _ _ _ _ (by decide)⟩

theorem typeIdsOf_nil (types : List (TypeDefinition Value)) :
    typeIdsOf types [] = .ok [] := rfl

theorem typeIdsOf_cons (types : List (TypeDefinition Value)) (fld : String × String)
    (rest : List (String × String)) :
    typeIdsOf types (fld :: rest)
      = resolveField types fld >>= fun i => (typeIdsOf types rest).map (fun l => i :: l) := by
  simp only [typeIdsOf, List.mapM_cons]
  cases h1 : resolveField types fld with
  | error e => rfl
  | ok i =>
      cases h2 : List.mapM (resolveField types) rest with
      | error e => rfl
      | ok l => rfl

/-- C5.  For a registry holding codecs A, B, C in that insertion order and
a descriptor mapping field x to type B and field y to type A, createBuffer
resolves the header IDs to [1, 0] — each entry the zero-based position of
the field type name in registry order, in descriptor field order — and the
emitted buffer starts with exactly those two 32-bit integers ahead of the
backing-buffer snapshot. -/
theorem createBuffer_header_ids (A B C : TypeDefinition Value) (buf : Bytes) (off : Nat)
    (x y : String) (hAB : A.name ≠ B.name) (hAC : A.name ≠ C.name) (hBC : B.name ≠ C.name) :
    (createBuffer ⟨buf, off, [A, B, C]⟩ [(x, B.name), (y, A.name)]).map Created.headerIds
        = .ok [1, 0] ∧
    (createBuffer ⟨buf, off, [A, B, C]⟩ [(x, B.name), (y, A.name)]).map Created.buffer
        = .ok (int32LE 1 ++ int32LE 0 ++ buf) := by
  have h1 : resolveField [A, B, C] (x, B.name) = .ok 1 := by
    simp [resolveField, List.findIdx?_cons, hAB]
  have h2 : resolveField [A, B, C] (y, A.name) = .ok 0 := by
    simp [resolveField, List.findIdx?_cons]
  have hids : typeIdsOf [A, B, C] [(x, B.name), (y, A.name)] = .ok [1, 0] := by
    rw [typeIdsOf_cons, h1, typeIdsOf_cons, h2, typeIdsOf_nil]
    rfl
  constructor <;>
    simp [createBuffer, hids, Bind.bind, Except.bind, Except.map, List.append_assoc]

theorem createBuffer_header_ids_witness :
    (uint8Dyn.name ≠ int8Dyn.name ∧ uint8Dyn.name ≠ booleanDyn.name ∧
      int8Dyn.name ≠ booleanDyn.name) ∧
    ((createBuffer ⟨[7], 0, [uint8Dyn, int8Dyn, booleanDyn]⟩
        [("x", int8Dyn.name), ("y", uint8Dyn.name)]).map Created.headerIds
        = .ok [1, 0] ∧
     (createBuffer ⟨[7], 0, [uint8Dyn, int8Dyn, booleanDyn]⟩
        [("x", int8Dyn.name), ("y", uint8Dyn.name)]).map Created.buffer
        = .ok (int32LE 1 ++ int32LE 0 ++ [7])) :=
  ⟨⟨by decide, by decide, by decide⟩,
    createBuffer_header_ids uint8Dyn int8Dyn booleanDyn [7] 0 "x" "y"
      (by decide) (by decide) (by decide)⟩

/-- Fail-fast resolution: a descriptor containing a type name absent from
the registry makes the ID-resolution pass return an unknown-type error for
an unregistered name. -/
theorem typeIdsOf_error_of_unresolvable :
    ∀ (types : List (TypeDefinition Value)) (descr : List (String × String)),
    (∃ fld ∈ descr, ∀ t ∈ types, t.name ≠ fld.2) →
    ∃ name, (∀ t ∈ types, t.name ≠ name) ∧
      typeIdsOf types descr = .error (.unknownType name) := by
  intro types descr
  induction descr with
  | nil =>
      rintro ⟨fld, hmem, -⟩
      exact absurd hmem (List.not_mem_nil fld)
  | cons fld rest ih =>
      intro h
      cases hf : types.findIdx? (fun t => t.name = fld.2) with
      | none =>
          refine ⟨fld.2, ?_, ?_⟩
          · intro t ht
            have := (List.findIdx?_eq_none_iff.mp hf) t ht
            simpa using this
          · rw [typeIdsOf_cons, show resolveField types fld = .error (.unknownType fld.2) from
              by simp [resolveField, hf]]
            rfl
      | some i =>
          obtain ⟨fld0, hmem, hall⟩ := h
          rcases List.mem_cons.mp hmem with heq | hmem0
          · exfalso
            have hnone : types.findIdx? (fun t => t.name = fld.2) = none := by
              rw [List.findIdx?_eq_none_iff]
              intro t ht
              subst heq
              simpa using hall t ht
            rw [hnone] at hf
            exact Option.noConfusion hf
          · obtain ⟨name, hn, herr⟩ := ih ⟨fld0, hmem0, hall⟩
            refine ⟨name, hn, ?_⟩
            rw [typeIdsOf_cons, show resolveField types fld = .ok i from
              by simp [resolveField, hf], herr]
            rfl

/-- C6.  createBuffer on a descriptor referencing an unregistered type
name fails with the unknown-type error: resolution happens before the
header is built, before any accessor is constructed, and before anything
could be written — on this path createBuffer returns only the error, so
there is no partial result and the backing buffer is untouched (the model
createBuffer never writes it at all; in the source the throw happens
before the header and concatenation are even computed). -/
theorem createBuffer_unknown_type (b : Builder) (descr : List (String × String))
    (h : ∃ fld ∈ descr, ∀ t ∈ b.types, t.name ≠ fld.2) :
    ∃ name, (∀ t ∈ b.types, t.name ≠ name) ∧
      createBuffer b descr = .error (.unknownType name) := by
  obtain ⟨name, hn, herr⟩ := typeIdsOf_error_of_unresolvable b.types descr h
  exact ⟨name, hn, by simp [createBuffer, herr, Bind.bind, Except.bind]⟩

theorem createBuffer_unknown_type_witness :
    (∃ fld ∈ [("height", "uint64")], ∀ t ∈ scenarioBuilder.types, t.name ≠ fld.2) ∧
    ∃ name, (∀ t ∈ scenarioBuilder.types, t.name ≠ name) ∧
      createBuffer scenarioBuilder [("height", "uint64")] = .error (.unknownType name) :=
  ⟨⟨("height", "uint64"), by decide, by decide⟩,
    createBuffer_unknown_type scenarioBuilder [("height", "uint64")]
      ⟨("height", "uint64"), by decide, by decide⟩⟩

/-- Frame lemma: a sequence of byte-range stores into the buffer with ID
`id` leaves every other buffer in the store unchanged. -/
theorem applyWrites_bufs_of_ne (id j : Nat) (h : j ≠ id) :
    ∀ (ws : List (Nat × Bytes)) (s : Store), (applyWrites s id ws).bufs j = s.bufs j := by
  intro ws
  induction ws with
  | nil => intro s; rfl
  | cons w ws ih =>
      intro s
      rw [applyWrites, ih]
      simp [writeBytesStore, h]

/-- C9.  The buffer produced by invoking copyFn is a byte-for-byte
duplicate of the input at invocation time, and the two are independent:
any sequence of writes into the original afterwards leaves the bytes of
the copy unchanged, and any sequence of writes into the copy leaves the
bytes of the original unchanged. -/
theorem copy_isolation (s : Store) (inputId : Nat) (h : inputId < s.next) :
    ((copyFn s inputId).1.bufs (copyFn s inputId).2 = s.bufs inputId) ∧
    (∀ ws : List (Nat × Bytes),
      (applyWrites (copyFn s inputId).1 inputId ws).bufs (copyFn s inputId).2
        = s.bufs inputId) ∧
    (∀ ws : List (Nat × Bytes),
      (applyWrites (copyFn s inputId).1 (copyFn s inputId).2 ws).bufs inputId
        = s.bufs inputId) := by
  have hne : inputId ≠ s.next := by omega
  refine ⟨?_, ?_, ?_⟩
  · simp [copyFn, Store.alloc]
  · intro ws
    have := applyWrites_bufs_of_ne inputId s.next (by omega) ws (copyFn s inputId).1
    simpa [copyFn, Store.alloc] using this
  · intro ws
    have := applyWrites_bufs_of_ne s.next inputId hne ws (copyFn s inputId).1
    simpa [copyFn, Store.alloc, hne] using this

theorem copy_isolation_witness :
    (0 < 1) ∧
    (((copyFn ⟨fun _ => [1, 2, 3], 1⟩ 0).1.bufs (copyFn ⟨fun _ => [1, 2, 3], 1⟩ 0).2
        = [1, 2, 3]) ∧
     (∀ ws : List (Nat × Bytes),
       (applyWrites (copyFn ⟨fun _ => [1, 2, 3], 1⟩ 0).1 0 ws).bufs
           (copyFn ⟨fun _ => [1, 2, 3], 1⟩ 0).2 = [1, 2, 3]) ∧
     (∀ ws : List (Nat × Bytes),
       (applyWrites (copyFn ⟨fun _ => [1, 2, 3], 1⟩ 0).1
           (copyFn ⟨fun _ => [1, 2, 3], 1⟩ 0).2 ws).bufs 0 = [1, 2, 3])) :=
  ⟨by decide, copy_isolation ⟨fun _ => [1, 2, 3], 1⟩ 0 (by decide)⟩

/-- Frame lemma: a sequence of builder-accessor sets into the buffer with
ID `id` leaves every other buffer in the store unchanged, whatever the
payloads and however the shared cursor moves. -/
theorem applySets_bufs_of_ne (id j : Nat) (h : j ≠ id) :
    ∀ (ps : List Bytes) (s : Store) (off : Nat),
      ((applySets s id off ps).1).bufs j = s.bufs j := by
  intro ps
  induction ps with
  | nil => intro s off; rfl
  | cons p ps ih =>
      intro s off
      rw [applySets, ih]
      simp [builderSetStore, writeBytesStore, h]

/-- C10.  The buffer returned by createBuffer is a fresh allocation
holding the header followed by a snapshot of the backing-buffer bytes
taken at creation time, and every later accessor set writes only into the
builder private backing buffer, so the bytes of the returned buffer (the
same object later handed to copyFn) never change: after any sequence of
sets from any cursor position they still read header ++ original data
bytes. -/
theorem createBuffer_snapshot_immutable (s : Store) (builderId : Nat) (hdr : Bytes)
    (h : builderId < s.next) (ps : List Bytes) (off : Nat) :
    ((applySets (createBufferAlloc s builderId hdr).1 builderId off ps).1).bufs
        (createBufferAlloc s builderId hdr).2
      = hdr ++ s.bufs builderId := by
  have hne : s.next ≠ builderId := by omega
  have := applySets_bufs_of_ne builderId s.next hne ps (createBufferAlloc s builderId hdr).1 off
  simpa [createBufferAlloc, Store.alloc] using this

theorem createBuffer_snapshot_immutable_witness :
    (0 < 1) ∧
    ((applySets (createBufferAlloc ⟨fun _ => [9, 9], 1⟩ 0 [0, 0, 0, 0]).1 0 0
        [[25], johnDoe]).1).bufs (createBufferAlloc ⟨fun _ => [9, 9], 1⟩ 0 [0, 0, 0, 0]).2
      = [0, 0, 0, 0] ++ [9, 9] :=
  ⟨by decide,
    createBuffer_snapshot_immutable ⟨fun _ => [9, 9], 1⟩ 0 [0, 0, 0, 0] (by decide)
      [[25], johnDoe] 0⟩

end BinaryBuffer

